import Mathlib

/-!
Verification development for the mergeSubtitle repository.

The embedding models the two cores of the program:

* the track-flag normalizer of src/src/utils/adjustFlags.ts
  (class AdjustFlags: getMKVmetadata, resolveTrackIdByUid, verifyFlags,
  editVideo, resetTrackFlags, setTrackAsDefault, adjustSubtitleFlags,
  adjustAudioFlags, adjustFlags), modelled as explicit state passing over
  an on-disk container value, with the success of each external
  mkvpropedit invocation supplied by an oracle;

* the safe container mutator of src/src/utils/subtitleProcessor.ts
  (class SubtitleProcessor: removeSubtitleByLanguage,
  verifySubtitleRemoval, mergeSubtitle), modelled over an explicit file
  system (a map from paths to file contents) together with an event
  trace recording every write, copy, unlink and rename, with the
  behaviour of each external mkvmerge remux invocation supplied by an
  oracle.

External identify calls (mkvmerge -J) are modelled as reading the current
container value and always succeeding when the file exists; the
failure-prone external steps that the claims are about (mkvpropedit edits
and mkvmerge remuxes) are the oracle-controlled ones.  Node path
arithmetic (dirname/basename/extname recombination) is simplified to
appending the fixed suffix to the input path: the code derives a sibling
temp path from the video name with a fixed suffix, and no claim depends
on the exact shape of that name, only on it being distinct from the
original path.
-/

namespace MergeSub

/-- A JSON scalar as it matters here: JavaScript strict equality
distinguishes numbers from strings, which is the heart of the uid
patching done by getMKVmetadata. -/
inductive JVal where
  | num (n : Nat)
  | str (s : String)
deriving DecidableEq, Repr

/-- One track as stored in the container on disk (the authoritative
state the external tools read and mutate).  Field names follow the
properties object of the mkvmerge identify JSON. -/
structure MTrack where
  id : Nat
  ttype : String
  language : String
  default_track : Bool
  forced_track : Bool
  track_name : Option String
  uid : Nat
deriving DecidableEq, Repr

/-- A container file: its list of tracks. -/
structure MKV where
  tracks : List MTrack
deriving DecidableEq, Repr

/-- One track record as produced by parsing the identify JSON: identical
to the on-disk track except that the uid field is a JSON scalar, since
the uid patching in getMKVmetadata turns numeric uid fields into string
literals. -/
structure JTrack where
  id : Nat
  ttype : String
  language : String
  default_track : Bool
  forced_track : Bool
  track_name : Option String
  uid : JVal
deriving DecidableEq, Repr

/-- Modelled from the spec: the static language table (languages.json,
imported by the languageCodes module, is not under src/).  The spec
describes it as a static mapping of entries of name to a non-empty
ordered code list with the first code canonical; its scenarios use
language name Persian with code per and language name English with code
eng, and no overlap between the two code sets. -/
def getLanguageCodes : String → Option (List String)
  | "Persian" => some ["per", "fas", "fa"]
  | "English" => some ["eng", "en"]
  | _ => none

/-- Embedding of getLanguageCodeFromName (languageCodes module): the
first code of the entry for the given name. -/
def getLanguageCodeFromName (name : String) : Option String :=
  (getLanguageCodes name).bind List.head?

/-- The identify call (mkvmerge -J): the real tool emits the uid of each
track as a JSON number.  Models the raw standard output of the external
identify tool, before any patching. -/
def identify (m : MKV) : List JTrack :=
  m.tracks.map (fun t =>
    { id := t.id, ttype := t.ttype, language := t.language,
      default_track := t.default_track, forced_track := t.forced_track,
      track_name := t.track_name, uid := JVal.num t.uid })

/-- Effect of the uid regex patch in getMKVmetadata on a uid value: a
numeric uid field is rewritten into a string literal; a string uid field
has no digits match and is unchanged. -/
def patchUid : JVal → JVal
  | JVal.num n => JVal.str (toString n)
  | JVal.str s => JVal.str s

/-- Embedding of AdjustFlags.getMKVmetadata: run identify, rewrite every
numeric uid field into a string literal, parse.  The parsed track list is
the identify output with each uid patched. -/
def getMKVmetadata (m : MKV) : List JTrack :=
  (identify m).map (fun t => { t with uid := patchUid t.uid })

/-- JavaScript strict equality on the JSON scalars involved: a number and
a string are never strictly equal. -/
def jeq : JVal → JVal → Bool
  | JVal.num n, JVal.num m => n == m
  | JVal.str a, JVal.str b => a == b
  | _, _ => false

/-- Embedding of AdjustFlags.getTracks: filter the parsed metadata by
track type. -/
def getTracks (m : MKV) (query : String) : List JTrack :=
  (getMKVmetadata m).filter (fun t => t.ttype == query)

/-- Embedding of AdjustFlags.resolveTrackIdByUid: re-inspect and find the
track whose parsed uid property is strictly equal to the argument. -/
def resolveTrackIdByUid (m : MKV) (uid : JVal) : Option Nat :=
  ((getMKVmetadata m).find? (fun t => jeq t.uid uid)).map (fun t => t.id)

/-- Embedding of AdjustFlags.verifyFlags: re-inspect, find the track
whose parsed uid property is strictly equal to the argument; false when
absent, else the conjunction of its default and forced flags. -/
def verifyFlags (m : MKV) (trackUId : JVal) : Bool :=
  match (getMKVmetadata m).find? (fun t => jeq t.uid trackUId) with
  | none => false
  | some t => t.default_track && t.forced_track

/-- Model of JavaScript toLowerCase, character by character.  (The Lean
core String.toLower is not kernel-reducible, so the embedding maps over
the character list directly.) -/
def strToLower (s : String) : String :=
  ⟨s.data.map Char.toLower⟩

/-- Model of JavaScript toUpperCase, character by character. -/
def strToUpper (s : String) : String :=
  ⟨s.data.map Char.toUpper⟩

/-- Whitespace trimming on a character list: drop whitespace from both
ends. -/
def trimL (l : List Char) : List Char :=
  ((l.dropWhile Char.isWhitespace).reverse.dropWhile Char.isWhitespace).reverse

/-- Model of JavaScript String.prototype.trim. -/
def strTrim (s : String) : String :=
  ⟨trimL s.data⟩

/-- Occurrence of a pattern anywhere in a character list. -/
def containsSub (pat : List Char) : List Char → Bool
  | [] => pat.isPrefixOf []
  | c :: rest => pat.isPrefixOf (c :: rest) || containsSub pat rest

/-- Model of JavaScript String.prototype.includes, used for the includes
checks on track names. -/
def hasSubstr (s pat : String) : Bool :=
  containsSub pat.data s.data

/-- Model of JavaScript String.prototype.startsWith. -/
def strStartsWith (s pat : String) : Bool :=
  pat.data.isPrefixOf s.data

/-- Embedding of AdjustFlags.isLanguageMatch: look the desired language
name up in the table; false when unmapped, else membership of the
lowercased code in the code set. -/
def isLanguageMatch (code desiredLang : String) : Bool :=
  match getLanguageCodes (strTrim desiredLang) with
  | none => false
  | some codes => codes.contains (strToLower code)

/-- Embedding of AdjustFlags.isCommentaryTrack: the track name contains
commentary, case-insensitively; false when the name is absent. -/
def isCommentaryTrack (trackName : Option String) : Bool :=
  match trackName with
  | some n => hasSubstr (strToLower n) "commentary"
  | none => false

/-- The nameContainsForced test of adjustSubtitleFlags: the track name
contains forced, case-insensitively; false when the name is absent. -/
def nameHasForced (trackName : Option String) : Bool :=
  match trackName with
  | some n => hasSubstr (strToLower n) "forced"
  | none => false

/-- Oracle for the external mkvpropedit invocations: whether the i-th
edit call (counting from zero across the whole run) exits zero. -/
structure EditEnv where
  propeditOk : Nat → Bool

/-- State threaded through the normalizer: the container on disk and the
number of external edit calls issued so far. -/
structure EditState where
  mkv : MKV
  edits : Nat
deriving DecidableEq, Repr

/-- String form in which a uid value is interpolated into the
mkvpropedit command line. -/
def jarg : JVal → String
  | JVal.num n => toString n
  | JVal.str s => s

/-- Effect of a successful mkvpropedit edit call on the container: the
edit selects the track by uid and sets its default flag, forced flag and
name. -/
def applyEdit (m : MKV) (uidArg : String) (d f : Bool) (name : String) : MKV :=
  ⟨m.tracks.map (fun t =>
    if toString t.uid == uidArg then
      { t with default_track := d, forced_track := f, track_name := some name }
    else t)⟩

/-- Embedding of AdjustFlags.editVideo: resolve the track id from the
uid (throwing when unresolved, modelled as the error case), then run
mkvpropedit; a failing edit call leaves the container unchanged and
yields false, a successful one applies the edit and yields true.  Either
way the call counts as one external edit invocation. -/
def editVideo (env : EditEnv) (s : EditState) (trackUid : JVal)
    (flagDefault flagForced : Bool) (name : String) :
    Except Unit (Bool × EditState) :=
  match resolveTrackIdByUid s.mkv trackUid with
  | none => Except.error ()
  | some _ =>
    if env.propeditOk s.edits then
      Except.ok (true,
        { mkv := applyEdit s.mkv (jarg trackUid) flagDefault flagForced name,
          edits := s.edits + 1 })
    else
      Except.ok (false, { s with edits := s.edits + 1 })

/-- Embedding of AdjustFlags.resetTrackFlags: demote a track; both flags
false and the name cleared to empty.  The boolean result of the edit is
only logged; a thrown error propagates. -/
def resetTrackFlags (env : EditEnv) (s : EditState) (trackUId : JVal) :
    Except Unit EditState :=
  (editVideo env s trackUId false false "").map (fun r => r.2)

/-- Embedding of AdjustFlags.setTrackAsDefault: promote a track; both
flags true and the name set to Forced.  The boolean result of the edit is
only logged; a thrown error propagates. -/
def setTrackAsDefault (env : EditEnv) (s : EditState) (trackUId : JVal) :
    Except Unit EditState :=
  (editVideo env s trackUId true true "Forced").map (fun r => r.2)

/-- Loop body of adjustSubtitleFlags over the snapshot of subtitle
tracks: a thrown error is caught by the surrounding handler and yields
false, a failed post-promotion verification returns false early,
otherwise the loop continues and finally yields true. -/
def adjustSubLoop (env : EditEnv) (subLang : String) :
    List JTrack → EditState → Bool × EditState
  | [], s => (true, s)
  | sub :: rest, s =>
    let matchedLang := isLanguageMatch sub.language subLang
    let isForced := sub.forced_track
    let isDefault := sub.default_track
    let nameContainsForced := nameHasForced sub.track_name
    let step1 : Except Unit EditState :=
      if !matchedLang && (isForced || isDefault || nameContainsForced) then
        resetTrackFlags env s sub.uid
      else
        Except.ok s
    match step1 with
    | Except.error _ => (false, s)
    | Except.ok s1 =>
      if matchedLang then
        if !isForced || !isDefault then
          match setTrackAsDefault env s1 sub.uid with
          | Except.error _ => (false, s1)
          | Except.ok s2 =>
            if verifyFlags s2.mkv sub.uid then
              adjustSubLoop env subLang rest s2
            else
              (false, s2)
        else
          adjustSubLoop env subLang rest s1
      else
        adjustSubLoop env subLang rest s1

/-- Embedding of AdjustFlags.adjustSubtitleFlags: snapshot the subtitle
tracks; an empty snapshot needs no action; otherwise run the per-track
loop. -/
def adjustSubtitleFlags (env : EditEnv) (subLang : String) (s : EditState) :
    Bool × EditState :=
  let subtitleTracks := getTracks s.mkv "subtitles"
  if subtitleTracks.length == 0 then (true, s)
  else adjustSubLoop env subLang subtitleTracks s

/-- Loop body of adjustAudioFlags over the snapshot of audio tracks,
mirroring the source: non-matching tracks that are commentary, default
or forced are demoted; matching non-commentary tracks not yet default
and forced are promoted and verified, a failed verification returning
false early. -/
def adjustAudioLoop (env : EditEnv) (audioLang : String) :
    List JTrack → EditState → Bool × EditState
  | [], s => (true, s)
  | audio :: rest, s =>
    let matchedLang := isLanguageMatch audio.language audioLang
    let isCommentary := isCommentaryTrack audio.track_name
    let isDefault := audio.default_track
    let isForced := audio.forced_track
    let step1 : Except Unit EditState :=
      if !matchedLang && (isCommentary || isDefault || isForced) then
        resetTrackFlags env s audio.uid
      else
        Except.ok s
    match step1 with
    | Except.error _ => (false, s)
    | Except.ok s1 =>
      if matchedLang && !isCommentary then
        if !isDefault || !isForced then
          match setTrackAsDefault env s1 audio.uid with
          | Except.error _ => (false, s1)
          | Except.ok s2 =>
            if verifyFlags s2.mkv audio.uid then
              adjustAudioLoop env audioLang rest s2
            else
              (false, s2)
        else
          adjustAudioLoop env audioLang rest s1
      else
        adjustAudioLoop env audioLang rest s1

/-- Embedding of AdjustFlags.adjustAudioFlags: snapshot the audio
tracks; an empty snapshot is reported as failure; otherwise run the
per-track loop. -/
def adjustAudioFlags (env : EditEnv) (audioLang : String) (s : EditState) :
    Bool × EditState :=
  let audioTracks := getTracks s.mkv "audio"
  if audioTracks.length == 0 then (false, s)
  else adjustAudioLoop env audioLang audioTracks s

/-- Embedding of AdjustFlags.adjustFlags: await the audio adjustment,
await the subtitle adjustment, discard both boolean results and return
true. -/
def adjustFlags (env : EditEnv) (subLang audioLang : String)
    (s : EditState) : Bool × EditState :=
  let a := adjustAudioFlags env audioLang s
  let b := adjustSubtitleFlags env subLang a.2
  (true, b.2)

/-- A file on disk: either a container or a subtitle file (its payload
abstracted as a string). -/
inductive FsFile where
  | mkvF (m : MKV)
  | subF (data : String)
deriving DecidableEq, Repr

/-- One observable file-system effect performed by the mutator. -/
inductive FsEvent where
  | writeE (p : String)
  | copyE (src dst : String)
  | unlinkE (p : String)
  | renameE (src dst : String)
deriving DecidableEq, Repr

/-- The file system (paths to contents) together with the trace of
effects performed so far. -/
structure FsState where
  fs : String → Option FsFile
  events : List FsEvent

/-- An external tool writing a file at a path. -/
def FsState.write (st : FsState) (p : String) (f : FsFile) : FsState :=
  { fs := fun q => if q = p then some f else st.fs q,
    events := st.events ++ [FsEvent.writeE p] }

/-- Embedding of fs copyFile: the destination receives the content of
the source. -/
def FsState.copy (st : FsState) (src dst : String) : FsState :=
  { fs := fun q => if q = dst then st.fs src else st.fs q,
    events := st.events ++ [FsEvent.copyE src dst] }

/-- Embedding of fs unlink. -/
def FsState.unlink (st : FsState) (p : String) : FsState :=
  { fs := fun q => if q = p then none else st.fs q,
    events := st.events ++ [FsEvent.unlinkE p] }

/-- Embedding of fs rename: the destination receives the content of the
source and the source disappears. -/
def FsState.rename (st : FsState) (src dst : String) : FsState :=
  { fs := fun q =>
      if q = dst then st.fs src
      else if q = src then none
      else st.fs q,
    events := st.events ++ [FsEvent.renameE src dst] }

/-- Oracle for the external mkvmerge invocations of the mutator.  remux
is the track-dropping call (input container, ids of the subtitle tracks
to drop): none models a non-zero exit, some out models exit zero with
out written to the output path.  mux is the subtitle-adding merge call
(input container, subtitle payload, language code, track title). -/
structure MuxEnv where
  remux : MKV → List Nat → Option MKV
  mux : MKV → String → String → String → Option MKV

/-- Renumbering of track ids performed by a remux, starting at a given
index: ids become the positional indices of the output container. -/
def renumberFrom : Nat → List MTrack → List MTrack
  | _, [] => []
  | i, t :: ts => { t with id := i } :: renumberFrom (i + 1) ts

/-- Renumbering of track ids performed by a remux. -/
def renumber (ts : List MTrack) : List MTrack :=
  renumberFrom 0 ts

/-- Contractual behaviour of the track-dropping remux: every subtitle
track whose id is in the drop list is absent from the output, all other
tracks are kept, and ids are renumbered. -/
def removeTracksPure (m : MKV) (ids : List Nat) : MKV :=
  ⟨renumber (m.tracks.filter
    (fun t => !(t.ttype == "subtitles" && ids.contains t.id)))⟩

/-- Fresh uid assigned by a merge to the track it adds. -/
def freshUid (m : MKV) : Nat :=
  (m.tracks.map (fun t => t.uid)).foldr max 0 + 1

/-- Contractual behaviour of the subtitle-adding merge: the input tracks
followed by one new subtitle track carrying the given language code and
title with both the default and the forced flag set, ids renumbered. -/
def addSubtitleTrack (m : MKV) (lang title : String) : MKV :=
  let ts := renumber m.tracks
  ⟨ts ++ [{ id := ts.length, ttype := "subtitles", language := lang,
            default_track := true, forced_track := true,
            track_name := some title, uid := freshUid m }]⟩

/-- The oracle instance in which every external mkvmerge call exits zero
and behaves per its contract. -/
def idealEnv : MuxEnv :=
  { remux := fun m ids => some (removeTracksPure m ids),
    mux := fun m _ lang title => some (addSubtitleTrack m lang title) }

/-- The track filter used by removeSubtitleByLanguage and
verifySubtitleRemoval: a subtitle track whose language code is in the
given code set. -/
def isMatchSub (codes : List String) (t : MTrack) : Bool :=
  t.ttype == "subtitles" && codes.contains t.language

/-- Subtitle tracks of the container whose language code is in the given
code set. -/
def matchingSubs (m : MKV) (codes : List String) : List MTrack :=
  m.tracks.filter (isMatchSub codes)

/-- Embedding of SubtitleProcessor.verifySubtitleRemoval: identify the
file at the path and report whether no subtitle track of one of the
given language codes remains. -/
def verifySubtitleRemoval (st : FsState) (inputPath : String)
    (langCodes : List String) : Bool :=
  match st.fs inputPath with
  | some (FsFile.mkvF d) => (matchingSubs d langCodes).length == 0
  | _ => false

/-- Embedding of SubtitleProcessor.removeSubtitleByLanguage: resolve the
language name (rejecting when unmapped), identify the input, collect the
ids of the subtitle tracks in that language; when none, succeed with no
mutation; otherwise remux to the sibling temp path, verify the temp
output, reject on verification failure without touching the original,
and on success delete the original and rename the temp into its place.
A non-zero remux exit propagates as a rejection. -/
def removeSubtitleByLanguage (env : MuxEnv) (st : FsState)
    (inputPath languageName : String) : Except String Unit × FsState :=
  let filePath := inputPath ++ "_RemovingSub.mkv"
  match getLanguageCodes languageName with
  | none => (Except.error ("Unknown language name: " ++ languageName), st)
  | some getLangCode =>
    match st.fs inputPath with
    | some (FsFile.mkvF data) =>
      let subsToRemove := (matchingSubs data getLangCode).map (fun t => t.id)
      if subsToRemove.length == 0 then
        (Except.ok (), st)
      else
        match env.remux data subsToRemove with
        | none => (Except.error "mkvmerge exited non-zero", st)
        | some out =>
          let st1 := st.write filePath (FsFile.mkvF out)
          if verifySubtitleRemoval st1 filePath getLangCode then
            let st2 := st1.unlink inputPath
            let st3 := st2.rename filePath inputPath
            (Except.ok (), st3)
          else
            (Except.error
              ("Failed to remove subtitles with language " ++ languageName),
             st1)
    | _ => (Except.error "identify failed", st)

/-- Configuration of one mergeSubtitle call: the fields of the processor
instance together with the MergeOptions argument. -/
structure MergeCfg where
  videoPath : String
  subtitlePath : String
  subtitleLang : String
  keepSubtitle : Bool
  language : String
  title : Option String

/-- Embedding of SubtitleProcessor.mergeSubtitle: existence checks, then
inside the try block the de-duplicating removal and the copy of the
container to the sibling temp path; then the external merge writes the
temp on success; the finally handler then unconditionally deletes the
original, renames the temp into its place and, unless keepSubtitle,
deletes the subtitle file, while the promise is rejected exactly when
the merge call failed. -/
def mergeSubtitle (env : MuxEnv) (cfg : MergeCfg) (st : FsState) :
    Except String Unit × FsState :=
  if strStartsWith cfg.subtitlePath "._" then
    (Except.error "Skipping Apple resource fork file", st)
  else if strStartsWith cfg.videoPath "._" then
    (Except.error "Skipping Apple resource fork file", st)
  else if (st.fs cfg.videoPath).isNone then
    (Except.error "Video file not found", st)
  else if (st.fs cfg.subtitlePath).isNone then
    (Except.error "Subtitle file not found", st)
  else
    let subtitleTitle :=
      match cfg.title with
      | some t => t
      | none => strToUpper cfg.language
    let tempOutput := cfg.videoPath ++ "_merged.mkv"
    match removeSubtitleByLanguage env st cfg.videoPath cfg.subtitleLang with
    | (Except.error e, st1) =>
      (Except.error ("Failed to copy video file: " ++ e), st1)
    | (Except.ok _, st1) =>
      let st2 := st1.copy cfg.videoPath tempOutput
      let muxRes :=
        match st2.fs cfg.videoPath, st2.fs cfg.subtitlePath with
        | some (FsFile.mkvF base), some (FsFile.subF sdata) =>
          env.mux base sdata cfg.language subtitleTitle
        | _, _ => none
      let st3 :=
        match muxRes with
        | some out => st2.write tempOutput (FsFile.mkvF out)
        | none => st2
      let st4 := st3.unlink cfg.videoPath
      let st5 := st4.rename tempOutput cfg.videoPath
      let st6 := if cfg.keepSubtitle then st5 else st5.unlink cfg.subtitlePath
      match muxRes with
      | some _ => (Except.ok (), st6)
      | none => (Except.error "Merging failed", st6)

/-!
Helper lemmas shared by the claim theorems.
-/

theorem write_fs_self (st : FsState) (p : String) (f : FsFile) :
    (st.write p f).fs p = some f := by
  simp [FsState.write]

theorem self_ne_append (p s : String) (h : 0 < s.length) : p ≠ p ++ s := by
  intro he
  have h2 := congrArg String.length he
  rw [String.length_append] at h2
  omega

/-!
Claim theorems.
-/

/-- C10: the top-level adjustFlags entry point returns true for every
container, every pair of target languages and every outcome of the
external edit calls: the boolean results of adjustAudioFlags and
adjustSubtitleFlags are discarded, so a flag-normalization failure is
never visible to the caller of adjustFlags. -/
theorem adjustFlags_always_returns_true (env : EditEnv)
    (subLang audioLang : String) (s : EditState) :
    (adjustFlags env subLang audioLang s).1 = true := rfl

/-- C2: getMKVmetadata rewrites every numeric uid field of the identify
JSON into a string literal, so every parsed track carries a
string-valued uid; consequently, whenever a track with numeric uid n
exists in the container, resolveTrackIdByUid applied to the number n
returns none and verifyFlags applied to the number n returns false,
because both compare the string-valued property with the numeric
argument under strict equality. -/
theorem uid_patch_defeats_numeric_lookup (m : MKV) (n : Nat)
    (h : ∃ t ∈ m.tracks, t.uid = n) :
    (∀ t ∈ getMKVmetadata m, ∃ s, t.uid = JVal.str s) ∧
    resolveTrackIdByUid m (JVal.num n) = none ∧
    verifyFlags m (JVal.num n) = false := by
  have hstr : ∀ t ∈ getMKVmetadata m, ∃ s, t.uid = JVal.str s := by
    intro t ht
    unfold getMKVmetadata identify at ht
    rw [List.map_map] at ht
    obtain ⟨u, _, rfl⟩ := List.mem_map.1 ht
    exact ⟨toString u.uid, rfl⟩
  have hfind :
      (getMKVmetadata m).find? (fun t => jeq t.uid (JVal.num n)) = none := by
    rw [List.find?_eq_none]
    intro t ht
    obtain ⟨s, hs⟩ := hstr t ht
    simp [hs, jeq]
  refine ⟨hstr, ?_, ?_⟩
  · unfold resolveTrackIdByUid
    rw [hfind]
    rfl
  · unfold verifyFlags
    rw [hfind]

theorem uid_patch_defeats_numeric_lookup_witness :
    resolveTrackIdByUid ⟨[⟨0, "subtitles", "per", true, true, none, 5⟩]⟩
      (JVal.num 5) = none ∧
    verifyFlags ⟨[⟨0, "subtitles", "per", true, true, none, 5⟩]⟩
      (JVal.num 5) = false :=
  (uid_patch_defeats_numeric_lookup
    ⟨[⟨0, "subtitles", "per", true, true, none, 5⟩]⟩ 5 (by decide)).2

/-- C9: for every container with zero subtitle tracks adjustSubtitleFlags
returns success leaving the state untouched, and for every container
with zero audio tracks adjustAudioFlags returns failure leaving the
state untouched. -/
theorem adjust_flags_on_missing_track_kinds (env : EditEnv)
    (subLang audioLang : String) (s1 s2 : EditState)
    (h1 : getTracks s1.mkv "subtitles" = [])
    (h2 : getTracks s2.mkv "audio" = []) :
    adjustSubtitleFlags env subLang s1 = (true, s1) ∧
    adjustAudioFlags env audioLang s2 = (false, s2) := by
  constructor
  · unfold adjustSubtitleFlags
    rw [h1]
    rfl
  · unfold adjustAudioFlags
    rw [h2]
    rfl

theorem adjust_flags_on_missing_track_kinds_witness :
    adjustSubtitleFlags ⟨fun _ => true⟩ "Persian" ⟨⟨[]⟩, 0⟩ =
      (true, ⟨⟨[]⟩, 0⟩) ∧
    adjustAudioFlags ⟨fun _ => true⟩ "English" ⟨⟨[]⟩, 0⟩ =
      (false, ⟨⟨[]⟩, 0⟩) :=
  adjust_flags_on_missing_track_kinds ⟨fun _ => true⟩ "Persian" "English"
    ⟨⟨[]⟩, 0⟩ ⟨⟨[]⟩, 0⟩ rfl rfl

/-- C3, counterexample: on the container holding a single audio track
with language eng, default true, forced false, with target audio
language Persian and every external edit call succeeding,
adjustAudioFlags does not return false: the only false returns in the
source are the zero-audio-tracks branch, a failed post-promotion
verification and the catch handler, none of which this scenario
reaches. -/
theorem adjustAudioFlags_eng_scenario_not_false :
    (adjustAudioFlags ⟨fun _ => true⟩ "Persian"
      ⟨⟨[⟨0, "audio", "eng", true, false, none, 7⟩]⟩, 0⟩).1 ≠ false := by
  decide

/-- C3, amended: on the container holding a single audio track with
language eng, default true, forced false, with target audio language
Persian and every external edit call succeeding, adjustAudioFlags
returns true, and the English track has been demoted: default and
forced both false (with its name cleared), through exactly one external
edit call. -/
theorem adjustAudioFlags_eng_scenario :
    adjustAudioFlags ⟨fun _ => true⟩ "Persian"
      ⟨⟨[⟨0, "audio", "eng", true, false, none, 7⟩]⟩, 0⟩ =
    (true, ⟨⟨[⟨0, "audio", "eng", false, false, some "", 7⟩]⟩, 1⟩) := by
  decide

/-- C4: on the container with subtitle tracks uid 1 (per, not default,
not forced) and uid 2 (eng, default, forced, named Forced), with target
subtitle language Persian and every external edit call succeeding,
adjustSubtitleFlags promotes uid 1 (default and forced true, name set
to Forced), demotes uid 2 (default and forced false, name cleared to
empty), returns true, and the final verification of uid 1 returns
true. -/
theorem adjustSubtitleFlags_per_eng_scenario :
    adjustSubtitleFlags ⟨fun _ => true⟩ "Persian"
      ⟨⟨[⟨0, "subtitles", "per", false, false, none, 1⟩,
         ⟨1, "subtitles", "eng", true, true, some "Forced", 2⟩]⟩, 0⟩ =
      (true, ⟨⟨[⟨0, "subtitles", "per", true, true, some "Forced", 1⟩,
                ⟨1, "subtitles", "eng", false, false, some "", 2⟩]⟩, 2⟩) ∧
    verifyFlags ⟨[⟨0, "subtitles", "per", true, true, some "Forced", 1⟩,
                  ⟨1, "subtitles", "eng", false, false, some "", 2⟩]⟩
      (JVal.str "1") = true := by
  decide

/-- C1, exhibit of the divergence: with the external merge call failing
(mkvmerge exits non-zero) on a container with no Persian subtitles, the
mergeSubtitle promise is rejected, yet the finally handler has still
deleted the original container at videoPath, renamed the abandoned temp
file over it and deleted the subtitle file: the event trace of the run
contains the unlink of the original. -/
theorem mergeSubtitle_mux_failure_still_deletes_original :
    (mergeSubtitle ⟨fun _ _ => none, fun _ _ _ _ => none⟩
      ⟨"/v.mkv", "/s.srt", "Persian", false, "per", some "Persian"⟩
      ⟨fun p => if p = "/v.mkv" then some (FsFile.mkvF ⟨[]⟩)
        else if p = "/s.srt" then some (FsFile.subF "x") else none,
       []⟩).1 = Except.error "Merging failed" ∧
    (mergeSubtitle ⟨fun _ _ => none, fun _ _ _ _ => none⟩
      ⟨"/v.mkv", "/s.srt", "Persian", false, "per", some "Persian"⟩
      ⟨fun p => if p = "/v.mkv" then some (FsFile.mkvF ⟨[]⟩)
        else if p = "/s.srt" then some (FsFile.subF "x") else none,
       []⟩).2.events =
      [FsEvent.copyE "/v.mkv" "/v.mkv_merged.mkv",
       FsEvent.unlinkE "/v.mkv",
       FsEvent.renameE "/v.mkv_merged.mkv" "/v.mkv",
       FsEvent.unlinkE "/s.srt"] := by
  exact ⟨rfl, by decide⟩

/-- C8: for every container holding zero subtitle tracks of the
requested language, removeSubtitleByLanguage returns success with no
mutation: the file system and the event trace are returned unchanged,
so no remux is invoked and the container file is left byte-identical. -/
theorem removeSubtitleByLanguage_no_matching_noop
    (env : MuxEnv) (st : FsState) (input lang : String)
    (codes : List String) (data : MKV)
    (h1 : getLanguageCodes lang = some codes)
    (h2 : st.fs input = some (FsFile.mkvF data))
    (h3 : matchingSubs data codes = []) :
    removeSubtitleByLanguage env st input lang = (Except.ok (), st) := by
  unfold removeSubtitleByLanguage
  rw [h1, h2]
  simp [h3]

theorem removeSubtitleByLanguage_no_matching_noop_witness :
    removeSubtitleByLanguage idealEnv
      ⟨fun p => if p = "/v.mkv" then
          some (FsFile.mkvF ⟨[⟨0, "subtitles", "eng", true, false, none, 3⟩]⟩)
        else none, []⟩
      "/v.mkv" "Persian" =
      (Except.ok (),
       ⟨fun p => if p = "/v.mkv" then
          some (FsFile.mkvF ⟨[⟨0, "subtitles", "eng", true, false, none, 3⟩]⟩)
        else none, []⟩) :=
  removeSubtitleByLanguage_no_matching_noop idealEnv _ "/v.mkv" "Persian"
    ["per", "fas", "fa"] ⟨[⟨0, "subtitles", "eng", true, false, none, 3⟩]⟩
    rfl rfl (by decide)

/-- C5: for every run of removeSubtitleByLanguage in which the
post-remux verification of the temp output still finds subtitle tracks
of the removed language, the call rejects, the only file-system effect
of the run is the write of the temp output, and the original container
at the input path is left with its content unchanged; the original is
deleted and the temp renamed into its place only on the verification
success path. -/
theorem removeSubtitleByLanguage_verification_failure
    (env : MuxEnv) (st : FsState) (input lang : String)
    (codes : List String) (data out : MKV)
    (h1 : getLanguageCodes lang = some codes)
    (h2 : st.fs input = some (FsFile.mkvF data))
    (h3 : matchingSubs data codes ≠ [])
    (h4 : env.remux data ((matchingSubs data codes).map (fun t => t.id)) =
      some out)
    (h5 : matchingSubs out codes ≠ []) :
    removeSubtitleByLanguage env st input lang =
      (Except.error ("Failed to remove subtitles with language " ++ lang),
       st.write (input ++ "_RemovingSub.mkv") (FsFile.mkvF out)) ∧
    (st.write (input ++ "_RemovingSub.mkv") (FsFile.mkvF out)).fs input =
      st.fs input ∧
    (st.write (input ++ "_RemovingSub.mkv") (FsFile.mkvF out)).events =
      st.events ++ [FsEvent.writeE (input ++ "_RemovingSub.mkv")] := by
  have hlen3 : ((matchingSubs data codes).length == 0) = false := by
    rw [beq_eq_false_iff_ne]
    exact fun hc => h3 (List.length_eq_zero.1 hc)
  have hlen5 : ((matchingSubs out codes).length == 0) = false := by
    rw [beq_eq_false_iff_ne]
    exact fun hc => h5 (List.length_eq_zero.1 hc)
  refine ⟨?_, ?_, rfl⟩
  · unfold removeSubtitleByLanguage
    rw [h1, h2]
    simp only [List.length_map, hlen3, Bool.false_eq_true, if_false, h4]
    unfold verifySubtitleRemoval
    rw [write_fs_self]
    simp only [hlen5, Bool.false_eq_true, if_false]
  · unfold FsState.write
    simp only
    rw [if_neg (self_ne_append input "_RemovingSub.mkv" (by decide))]

theorem removeSubtitleByLanguage_verification_failure_witness :
    removeSubtitleByLanguage ⟨fun m _ => some m, fun m _ _ _ => some m⟩
      ⟨fun p => if p = "/v.mkv" then
          some (FsFile.mkvF ⟨[⟨0, "subtitles", "per", true, true, none, 3⟩]⟩)
        else none, []⟩
      "/v.mkv" "Persian" =
      (Except.error "Failed to remove subtitles with language Persian",
       FsState.write
         ⟨fun p => if p = "/v.mkv" then
            some (FsFile.mkvF ⟨[⟨0, "subtitles", "per", true, true, none, 3⟩]⟩)
          else none, []⟩
         "/v.mkv_RemovingSub.mkv"
         (FsFile.mkvF ⟨[⟨0, "subtitles", "per", true, true, none, 3⟩]⟩)) ∧
    (FsState.write
      ⟨fun p => if p = "/v.mkv" then
         some (FsFile.mkvF ⟨[⟨0, "subtitles", "per", true, true, none, 3⟩]⟩)
       else none, []⟩
      "/v.mkv_RemovingSub.mkv"
      (FsFile.mkvF ⟨[⟨0, "subtitles", "per", true, true, none, 3⟩]⟩)).fs
        "/v.mkv" =
      some (FsFile.mkvF ⟨[⟨0, "subtitles", "per", true, true, none, 3⟩]⟩) := by
  have h := removeSubtitleByLanguage_verification_failure
    ⟨fun m _ => some m, fun m _ _ _ => some m⟩
    ⟨fun p => if p = "/v.mkv" then
       some (FsFile.mkvF ⟨[⟨0, "subtitles", "per", true, true, none, 3⟩]⟩)
     else none, []⟩
    "/v.mkv" "Persian" ["per", "fas", "fa"]
    ⟨[⟨0, "subtitles", "per", true, true, none, 3⟩]⟩
    ⟨[⟨0, "subtitles", "per", true, true, none, 3⟩]⟩
    rfl rfl (by decide) (by decide) (by decide)
  exact ⟨h.1, h.2.1⟩

/-- The adjustSubtitleFlags loop leaves the state untouched when every
track of the snapshot needs no action: matching tracks are already both
default and forced, and non-matching tracks are neither default nor
forced nor named forced. -/
theorem adjustSubLoop_already_set (env : EditEnv) (subLang : String)
    (l : List JTrack) :
    ∀ s : EditState,
    (∀ t ∈ l,
      (isLanguageMatch t.language subLang = true →
        t.default_track = true ∧ t.forced_track = true) ∧
      (isLanguageMatch t.language subLang = false →
        t.default_track = false ∧ t.forced_track = false ∧
        nameHasForced t.track_name = false)) →
    adjustSubLoop env subLang l s = (true, s) := by
  induction l with
  | nil => intro s _; rfl
  | cons t rest ih =>
    intro s h
    have hh := h t (List.mem_cons_self t rest)
    have hrest := fun u hu => h u (List.mem_cons_of_mem t hu)
    by_cases hm : isLanguageMatch t.language subLang = true
    · obtain ⟨hd, hf⟩ := hh.1 hm
      simp only [adjustSubLoop, hm, hd, hf]
      simp only [Bool.not_true, Bool.false_and, Bool.or_self, if_false,
        Bool.false_or, Bool.false_eq_true]
      simp only [if_true, Bool.true_eq_false]
      exact ih s hrest
    · rw [Bool.not_eq_true] at hm
      obtain ⟨hd, hf, hn⟩ := hh.2 hm
      simp only [adjustSubLoop, hm, hd, hf, hn]
      simp only [Bool.not_false, Bool.true_and, Bool.or_self, if_false,
        Bool.false_eq_true]
      exact ih s hrest

/-- C7: for every container in which every subtitle track matching the
target language is already both default and forced, and no non-matching
subtitle track is default, forced or named forced, adjustSubtitleFlags
returns success with the state unchanged: in particular the external
edit-call counter is unchanged, so zero edit calls are performed. -/
theorem adjustSubtitleFlags_idempotent (env : EditEnv) (subLang : String)
    (s : EditState)
    (h : ∀ t ∈ getTracks s.mkv "subtitles",
      (isLanguageMatch t.language subLang = true →
        t.default_track = true ∧ t.forced_track = true) ∧
      (isLanguageMatch t.language subLang = false →
        t.default_track = false ∧ t.forced_track = false ∧
        nameHasForced t.track_name = false)) :
    adjustSubtitleFlags env subLang s = (true, s) := by
  unfold adjustSubtitleFlags
  by_cases hl : (getTracks s.mkv "subtitles").length == 0
  · rw [if_pos hl]
  · rw [if_neg hl]
    exact adjustSubLoop_already_set env subLang _ s h

theorem adjustSubtitleFlags_idempotent_witness :
    adjustSubtitleFlags ⟨fun _ => true⟩ "Persian"
      ⟨⟨[⟨0, "subtitles", "per", true, true, none, 1⟩,
         ⟨1, "subtitles", "eng", false, false, none, 2⟩]⟩, 3⟩ =
      (true, ⟨⟨[⟨0, "subtitles", "per", true, true, none, 1⟩,
                ⟨1, "subtitles", "eng", false, false, none, 2⟩]⟩, 3⟩) :=
  adjustSubtitleFlags_idempotent ⟨fun _ => true⟩ "Persian"
    ⟨⟨[⟨0, "subtitles", "per", true, true, none, 1⟩,
       ⟨1, "subtitles", "eng", false, false, none, 2⟩]⟩, 3⟩ (by decide)

/-- Renumbering track ids does not change which tracks match a language
filter, since the filter only reads the type and the language. -/
theorem matchingSubs_renumberFrom (codes : List String) :
    ∀ (i : Nat) (ts : List MTrack),
      ((renumberFrom i ts).filter (isMatchSub codes)).length =
        (ts.filter (isMatchSub codes)).length := by
  intro i ts
  induction ts generalizing i with
  | nil => rfl
  | cons t rest ih =>
    simp only [renumberFrom, List.filter_cons]
    have hsame : isMatchSub codes { t with id := i } = isMatchSub codes t := rfl
    rw [hsame]
    cases h : isMatchSub codes t
    · simp only [Bool.false_eq_true, if_false, ih]
    · simp only [if_true, List.length_cons, ih]

/-- Dropping exactly the ids of the matching subtitle tracks leaves a
container with no matching subtitle track. -/
theorem matchingSubs_removeTracksPure (data : MKV) (codes : List String) :
    matchingSubs
      (removeTracksPure data ((matchingSubs data codes).map (fun t => t.id)))
      codes = [] := by
  unfold removeTracksPure matchingSubs renumber
  apply List.length_eq_zero.mp
  rw [matchingSubs_renumberFrom]
  rw [List.length_eq_zero, List.filter_eq_nil_iff]
  intro t ht hmatch
  rcases List.mem_filter.mp ht with ⟨htmem, hkeep⟩
  have hid : t.id ∈ (List.filter (isMatchSub codes) data.tracks).map
      (fun t => t.id) :=
    List.mem_map_of_mem _ (List.mem_filter.mpr ⟨htmem, hmatch⟩)
  have hsub : (t.ttype == "subtitles") = true := (Bool.and_eq_true _ _ ▸ hmatch).1
  have hcont : (((matchingSubs data codes).map (fun t => t.id)).contains t.id) =
      true := List.elem_eq_true_of_mem hid
  unfold matchingSubs at hcont
  rw [hsub, hcont] at hkeep
  simp at hkeep

/-- Adding a subtitle track in a language of the code set increases the
number of matching subtitle tracks by one. -/
theorem matchingSubs_addSubtitleTrack (m : MKV) (lang title : String)
    (codes : List String) (h : codes.contains lang = true) :
    (matchingSubs (addSubtitleTrack m lang title) codes).length =
      (matchingSubs m codes).length + 1 := by
  unfold addSubtitleTrack matchingSubs
  simp only [List.filter_append, List.length_append]
  have hmem : lang ∈ codes := by simpa using h
  have hnew : isMatchSub codes
      { id := (renumber m.tracks).length, ttype := "subtitles",
        language := lang, default_track := true, forced_track := true,
        track_name := some title, uid := freshUid m } = true := by
    simp [isMatchSub, hmem]
  rw [List.filter_cons, hnew]
  simp only [if_true, List.filter_nil, List.length_cons, List.length_nil]
  unfold renumber
  rw [matchingSubs_renumberFrom]

/-- On the ideal oracle, removeSubtitleByLanguage succeeds for every
container, leaving at the input path a container with no matching
subtitle track and touching no path other than the input and its
sibling temp path. -/
theorem removeSubtitleByLanguage_ideal (st : FsState) (input lang : String)
    (codes : List String) (data : MKV)
    (h1 : getLanguageCodes lang = some codes)
    (h2 : st.fs input = some (FsFile.mkvF data)) :
    ∃ (m' : MKV) (st' : FsState),
      removeSubtitleByLanguage idealEnv st input lang = (Except.ok (), st') ∧
      st'.fs input = some (FsFile.mkvF m') ∧
      matchingSubs m' codes = [] ∧
      ∀ q, q ≠ input → q ≠ input ++ "_RemovingSub.mkv" →
        st'.fs q = st.fs q := by
  by_cases hempty : matchingSubs data codes = []
  · exact ⟨data, st,
      removeSubtitleByLanguage_no_matching_noop idealEnv st input lang codes
        data h1 h2 hempty,
      h2, hempty, fun q _ _ => rfl⟩
  · have hlen : ((matchingSubs data codes).length == 0) = false := by
      rw [beq_eq_false_iff_ne]
      exact fun hc => hempty (List.length_eq_zero.1 hc)
    have hverify := matchingSubs_removeTracksPure data codes
    have hfp : (input ++ "_RemovingSub.mkv") ≠ input :=
      (self_ne_append input "_RemovingSub.mkv" (by decide)).symm
    refine ⟨removeTracksPure data ((matchingSubs data codes).map
        (fun t => t.id)),
      ((st.write (input ++ "_RemovingSub.mkv")
          (FsFile.mkvF (removeTracksPure data
            ((matchingSubs data codes).map (fun t => t.id))))).unlink
        input).rename (input ++ "_RemovingSub.mkv") input,
      ?_, ?_, hverify, ?_⟩
    · unfold removeSubtitleByLanguage
      rw [h1, h2]
      simp only [List.length_map, hlen, Bool.false_eq_true, if_false,
        idealEnv]
      unfold verifySubtitleRemoval
      rw [write_fs_self]
      simp only [hverify, List.length_nil, beq_self_eq_true, if_true]
    · simp only [FsState.rename, FsState.unlink, FsState.write]
      simp [hfp]
    · intro q hq1 hq2
      simp only [FsState.rename, FsState.unlink, FsState.write]
      simp [hq1, hq2]

/-- On the ideal oracle, a mergeSubtitle call on a container and an
existing subtitle file succeeds, leaves at the video path a container
holding exactly one subtitle track in a language of the target code
set, and touches no path other than the video path, its two sibling
temp paths and the subtitle path. -/
theorem mergeSubtitle_ideal (st : FsState) (cfg : MergeCfg)
    (codes : List String) (data : MKV) (sdata : String)
    (h0 : strStartsWith cfg.videoPath "._" = false)
    (h0b : strStartsWith cfg.subtitlePath "._" = false)
    (h1 : getLanguageCodes cfg.subtitleLang = some codes)
    (h2 : st.fs cfg.videoPath = some (FsFile.mkvF data))
    (h3 : st.fs cfg.subtitlePath = some (FsFile.subF sdata))
    (h4 : cfg.subtitlePath ≠ cfg.videoPath)
    (h5 : cfg.subtitlePath ≠ cfg.videoPath ++ "_RemovingSub.mkv")
    (h6 : cfg.subtitlePath ≠ cfg.videoPath ++ "_merged.mkv")
    (h7 : codes.contains cfg.language = true) :
    ∃ (m' : MKV) (st' : FsState),
      mergeSubtitle idealEnv cfg st = (Except.ok (), st') ∧
      st'.fs cfg.videoPath = some (FsFile.mkvF m') ∧
      (matchingSubs m' codes).length = 1 ∧
      ∀ q, q ≠ cfg.videoPath → q ≠ cfg.videoPath ++ "_RemovingSub.mkv" →
        q ≠ cfg.videoPath ++ "_merged.mkv" → q ≠ cfg.subtitlePath →
        st'.fs q = st.fs q := by
  obtain ⟨m1, st1, hrem, hst1v, hm1, hframe1⟩ :=
    removeSubtitleByLanguage_ideal st cfg.videoPath cfg.subtitleLang codes
      data h1 h2
  have hvm : cfg.videoPath ≠ cfg.videoPath ++ "_merged.mkv" :=
    self_ne_append cfg.videoPath "_merged.mkv" (by decide)
  have hst1s : st1.fs cfg.subtitlePath = some (FsFile.subF sdata) := by
    rw [hframe1 cfg.subtitlePath h4 h5]
    exact h3
  have hc1 : (st1.copy cfg.videoPath
      (cfg.videoPath ++ "_merged.mkv")).fs cfg.videoPath =
      some (FsFile.mkvF m1) := by
    simp only [FsState.copy]
    rw [if_neg hvm]
    exact hst1v
  have hc2 : (st1.copy cfg.videoPath
      (cfg.videoPath ++ "_merged.mkv")).fs cfg.subtitlePath =
      some (FsFile.subF sdata) := by
    simp only [FsState.copy]
    rw [if_neg h6]
    exact hst1s
  refine ⟨addSubtitleTrack m1 cfg.language
      (match cfg.title with | some t => t | none => strToUpper cfg.language),
    (if cfg.keepSubtitle then
      ((((st1.copy cfg.videoPath (cfg.videoPath ++ "_merged.mkv")).write
          (cfg.videoPath ++ "_merged.mkv")
          (FsFile.mkvF (addSubtitleTrack m1 cfg.language
            (match cfg.title with
             | some t => t
             | none => strToUpper cfg.language)))).unlink
        cfg.videoPath).rename (cfg.videoPath ++ "_merged.mkv") cfg.videoPath)
    else
      (((((st1.copy cfg.videoPath (cfg.videoPath ++ "_merged.mkv")).write
          (cfg.videoPath ++ "_merged.mkv")
          (FsFile.mkvF (addSubtitleTrack m1 cfg.language
            (match cfg.title with
             | some t => t
             | none => strToUpper cfg.language)))).unlink
        cfg.videoPath).rename (cfg.videoPath ++ "_merged.mkv")
          cfg.videoPath).unlink cfg.subtitlePath)),
    ?_, ?_, ?_, ?_⟩
  · unfold mergeSubtitle
    rw [hrem]
    simp only [h0, h0b, h2, h3, Option.isNone_some, Bool.false_eq_true,
      if_false, hc1, hc2, idealEnv]
  · cases hk : cfg.keepSubtitle
    · simp only [Bool.false_eq_true, if_false, FsState.rename,
        FsState.unlink, FsState.write]
      simp [Ne.symm h4, Ne.symm hvm]
    · simp only [if_true, FsState.rename, FsState.unlink, FsState.write]
      simp [Ne.symm hvm]
  · rw [matchingSubs_addSubtitleTrack m1 cfg.language _ codes h7, hm1]
    rfl
  · intro q hq1 hq2 hq3 hq4
    have hfr := hframe1 q hq1 hq2
    cases hk : cfg.keepSubtitle
    · simp only [Bool.false_eq_true, if_false, FsState.rename,
        FsState.unlink, FsState.write, FsState.copy]
      simp [hq1, hq3, hq4, hfr]
    · simp only [if_true, FsState.rename, FsState.unlink, FsState.write,
        FsState.copy]
      simp [hq1, hq3, hfr]

/-- C6: for every container and every subtitle language of the table,
running mergeSubtitle and then immediately running mergeSubtitle again
with the same language (each call given an existing subtitle file, with
the language code and title that merge passes, on the ideal external
oracle) leaves exactly one subtitle track of that language in the
container, not two: each merge first removes the tracks of the incoming
language before adding the new one. -/
theorem mergeSubtitle_twice_single_track (m : MKV) (d1 d2 : String)
    (lang c : String) (cs : List String)
    (h : getLanguageCodes lang = some (c :: cs)) :
    ∃ (m' : MKV) (st1 st2 : FsState),
      mergeSubtitle idealEnv ⟨"/v.mkv", "/s1.srt", lang, false, c, some lang⟩
        ⟨fun p => if p = "/v.mkv" then some (FsFile.mkvF m)
          else if p = "/s1.srt" then some (FsFile.subF d1)
          else if p = "/s2.srt" then some (FsFile.subF d2)
          else none, []⟩ = (Except.ok (), st1) ∧
      mergeSubtitle idealEnv ⟨"/v.mkv", "/s2.srt", lang, false, c, some lang⟩
        st1 = (Except.ok (), st2) ∧
      st2.fs "/v.mkv" = some (FsFile.mkvF m') ∧
      (matchingSubs m' (c :: cs)).length = 1 := by
  obtain ⟨m1, st1, hm1, hfs1, hcount1, hframe1⟩ :=
    mergeSubtitle_ideal
      ⟨fun p => if p = "/v.mkv" then some (FsFile.mkvF m)
        else if p = "/s1.srt" then some (FsFile.subF d1)
        else if p = "/s2.srt" then some (FsFile.subF d2)
        else none, []⟩
      ⟨"/v.mkv", "/s1.srt", lang, false, c, some lang⟩
      (c :: cs) m d1 rfl rfl h rfl rfl
      (show "/s1.srt" ≠ "/v.mkv" by decide)
      (show "/s1.srt" ≠ "/v.mkv" ++ "_RemovingSub.mkv" by decide)
      (show "/s1.srt" ≠ "/v.mkv" ++ "_merged.mkv" by decide)
      (by simp)
  have hs2 : st1.fs "/s2.srt" = some (FsFile.subF d2) := by
    rw [hframe1 "/s2.srt"
      (show "/s2.srt" ≠ "/v.mkv" by decide)
      (show "/s2.srt" ≠ "/v.mkv" ++ "_RemovingSub.mkv" by decide)
      (show "/s2.srt" ≠ "/v.mkv" ++ "_merged.mkv" by decide)
      (show "/s2.srt" ≠ "/s1.srt" by decide)]
    rfl
  obtain ⟨m2, st2, hm2, hfs2, hcount2, _⟩ :=
    mergeSubtitle_ideal st1
      ⟨"/v.mkv", "/s2.srt", lang, false, c, some lang⟩
      (c :: cs) m1 d2 rfl rfl h hfs1 hs2
      (show "/s2.srt" ≠ "/v.mkv" by decide)
      (show "/s2.srt" ≠ "/v.mkv" ++ "_RemovingSub.mkv" by decide)
      (show "/s2.srt" ≠ "/v.mkv" ++ "_merged.mkv" by decide)
      (by simp)
  exact ⟨m2, st1, st2, hm1, hm2, hfs2, hcount2⟩

theorem mergeSubtitle_twice_single_track_witness :
    ∃ (m' : MKV) (st1 st2 : FsState),
      mergeSubtitle idealEnv
        ⟨"/v.mkv", "/s1.srt", "Persian", false, "per", some "Persian"⟩
        ⟨fun p => if p = "/v.mkv" then some (FsFile.mkvF ⟨[]⟩)
          else if p = "/s1.srt" then some (FsFile.subF "a")
          else if p = "/s2.srt" then some (FsFile.subF "b")
          else none, []⟩ = (Except.ok (), st1) ∧
      mergeSubtitle idealEnv
        ⟨"/v.mkv", "/s2.srt", "Persian", false, "per", some "Persian"⟩
        st1 = (Except.ok (), st2) ∧
      st2.fs "/v.mkv" = some (FsFile.mkvF m') ∧
      (matchingSubs m' ("per" :: ["fas", "fa"])).length = 1 :=
  mergeSubtitle_twice_single_track ⟨[]⟩ "a" "b" "Persian" "per" ["fas", "fa"]
    rfl

end MergeSub
